import Mathlib

/-!
A shallow embedding in Lean 4 of the grid execution and synchronization
engine of the triSYCL ACAP AI Engine layer, together with theorems
settling the specification claims about it.

The embedding follows the C++ sources:
  * `include/triSYCL/vendor/Xilinx/acap/aie/tile.hpp`
    (native memory module selection, horizontal barrier),
  * `include/triSYCL/vendor/Xilinx/acap/aie/lock.hpp`
    (the value-gated lock devices and the 16-lock bank),
  * `include/triSYCL/vendor/Xilinx/acap/aie/tile_infrastructure/detail/tile_infrastructure.hpp`
    (`single_task` / `wait` life cycle),
  * `include/triSYCL/vendor/Xilinx/acap/aie/device_allocator.hpp`
    (the free-list arena allocator).
-/

namespace AcapAIE

/-! ## Geography

The `geography.hpp` header itself is not part of the sources at hand; the
predicates below are the edge/existence rules it provides. -/

/-- Modelled from the spec: `geo::is_west_column`, missing from the sources.
A tile is in the Western column when its x coordinate is 0 (coordinates
start at 0 and increase towards the East). -/
def is_west_column (x : Nat) : Bool := x == 0

/-- Modelled from the spec: `geo::is_east_column`, missing from the sources.
For a grid of width `w`, the Eastern column is at x = w - 1. -/
def is_east_column (w x : Nat) : Bool := x == w - 1

/-- Modelled from the spec: `geo::is_memory_module(x, y, -1, 0)`, missing from
the sources.  Per the `static_assert` message in `tile.hpp`: "There is no
memory module on the West of this tile in the Western column and on an even
row" — i.e. a Western memory module exists unless the tile is both in the
Western column and on an even row. -/
def is_memory_module_west (x y : Nat) : Bool :=
  !(is_west_column x && y % 2 == 0)

/-- Modelled from the spec: `geo::is_memory_module(x, y, 1, 0)`, missing from
the sources.  Per the `static_assert` message in `tile.hpp`: "There is no
memory module on the East of this tile in the Eastern column and on an odd
row". -/
def is_memory_module_east (w x y : Nat) : Bool :=
  !(is_east_column w x && y % 2 == 1)

/-! ## Native memory module and the horizontal barrier (`tile.hpp`) -/

/-- The side of a tile on which a memory module sits. -/
inductive Side where
  | west
  | east
deriving DecidableEq, Repr

/-- One lock operation performed by the barrier protocol on a lock device. -/
inductive lock_op where
  | acquire_with_value (v : Bool)
  | release_with_value (v : Bool)
deriving DecidableEq, Repr

/-- The side of the memory module native to a tile, from `tile::mem()`:
`if constexpr (y & 1) return mem_west(); else return mem_east();`. -/
def mem_native (y : Nat) : Side :=
  if y % 2 == 1 then Side.west else Side.east

/-- The sequence of lock operations performed by `tile::horizontal_barrier`
on a tile at `(x, y)` in a grid of width `w`, labelled by the side of the
memory module each operation targets.  Mirrors `tile.hpp` lines 359-395:
in the `y & 1` branch `mem()` is the Western module, in the other branch the
Eastern one. -/
def horizontal_barrier (w x y : Nat) : List (Side × lock_op) :=
  if y % 2 == 1 then
    -- Propagate a token from West to East and back
    (if !is_west_column x then
       [(Side.west, lock_op.acquire_with_value true)] else [])
    ++ (if is_memory_module_east w x y then
       [(Side.east, lock_op.acquire_with_value false),
        (Side.east, lock_op.release_with_value true),
        (Side.east, lock_op.acquire_with_value false)] else [])
    ++ (if !is_west_column x then
       [(Side.west, lock_op.release_with_value false)] else [])
  else
    -- Propagate a token from East to West and back
    (if !is_east_column w x then
       [(Side.east, lock_op.acquire_with_value true)] else [])
    ++ (if is_memory_module_west x y then
       [(Side.west, lock_op.acquire_with_value false),
        (Side.west, lock_op.release_with_value true),
        (Side.west, lock_op.acquire_with_value false)] else [])
    ++ (if !is_east_column w x then
       [(Side.east, lock_op.release_with_value false)] else [])

/-! ## Lock devices (`lock.hpp`)

A `locking_device` holds a mutex, a condition variable and a boolean value
(initialized to `false`).  `acquire_with_value(expectation)` waits on the
condition variable until `expectation == value`; `release_with_value(v)`
stores `v` and calls `notify_one`.  The mutex/condition-variable pair is
modelled as an explicit one-waiter transition system. -/

/-- The persistent state of one lock device: the stored boolean value
(`value_t value = false` on reset). -/
structure locking_device where
  value : Bool
deriving DecidableEq, Repr

/-- The phase of the (single) client context interacting with a lock device:
running, blocked inside `acquire_with_value` waiting for `expectation`, or
resumed out of the wait having observed the stored value. -/
inductive WaiterPhase where
  | running
  | blocked (expectation : Bool)
  | resumed (observed : Bool)
deriving DecidableEq, Repr

/-- A lock device together with its single client context. -/
structure lock_sys where
  dev : locking_device
  waiter : WaiterPhase
deriving DecidableEq, Repr

/-- The client calls `acquire_with_value(expectation)`: the condition
variable wait returns at once when `expectation == value` holds, otherwise
the caller blocks. -/
def call_acquire_with_value (s : lock_sys) (expectation : Bool) : lock_sys :=
  if expectation == s.dev.value then
    { s with waiter := WaiterPhase.resumed s.dev.value }
  else
    { s with waiter := WaiterPhase.blocked expectation }

/-- Source `cv->notify_one()`: a blocked waiter re-checks the wait predicate
`expectation == value` and resumes only when it holds (observing the stored
value); otherwise it stays blocked.  A notification with no waiter is lost. -/
def notify_one (s : lock_sys) : lock_sys :=
  match s.waiter with
  | WaiterPhase.blocked e =>
      if e == s.dev.value then
        { s with waiter := WaiterPhase.resumed s.dev.value }
      else s
  | _ => s

/-- The other context calls `release_with_value(new_value)`: store the new
value under the mutex, then `notify_one`. -/
def call_release_with_value (s : lock_sys) (new_value : Bool) : lock_sys :=
  notify_one { s with dev := { value := new_value } }

/-! ## The lock bank (`lock_unit`) -/

/-- There are 16 hardware locks per memory tile. -/
def lock_number : Nat := 16

/-- The error taxonomy used by the engine. -/
inductive acap_error where
  | out_of_range
  | already_running
deriving DecidableEq, Repr

/-- The locking units of the locking device: a bank of `lock_number`
devices. -/
structure lock_unit where
  locks : Fin lock_number → locking_device

/-- Source `lock_unit::lock(int i)`: `assert(0 <= i && i < lock_number)` then return
`locks[i]`.  The failed assertion is the synchronous out-of-range failure. -/
def lock_unit.lock (u : lock_unit) (i : Int) : Except acap_error locking_device :=
  if h : 0 ≤ i ∧ i < (lock_number : Int) then
    Except.ok (u.locks ⟨i.toNat, by omega⟩)
  else
    Except.error acap_error.out_of_range

/-! ## Tile execution context (`tile_infrastructure.hpp`)

The life cycle state is whether `future_work.valid()` holds: a submitted
unit of work that has not been joined yet. -/

/-- The observable execution-life-cycle state of a tile infrastructure:
whether `future_work` holds a not-yet-joined unit of work. -/
structure tile_infrastructure where
  future_valid : Bool
deriving DecidableEq, Repr

/-- Source `tile_infrastructure::single_task`: throws (`std::logic_error`,
"Something is already running on this tile!") when `future_work.valid()`,
otherwise launches the work, making the future valid.  The second component
is the state after the call; on the error path nothing was touched. -/
def tile_infrastructure.single_task (t : tile_infrastructure) :
    Except acap_error Unit × tile_infrastructure :=
  if t.future_valid then
    (Except.error acap_error.already_running, t)
  else
    (Except.ok (), { future_valid := true })

/-- Source `tile_infrastructure::wait`: `if (future_work.valid()) future_work.get();`.
The boolean result records whether a (potentially blocking) join was
performed; `std::future::get` invalidates the future. -/
def tile_infrastructure.wait (t : tile_infrastructure) :
    Bool × tile_infrastructure :=
  if t.future_valid then (true, { future_valid := false })
  else (false, t)

/-! ## The device allocator (`device_allocator.hpp`) -/

namespace heap

/-- Source `constexpr unsigned min_alloc_size = 8;`. -/
def min_alloc_size : Nat := 8

/-- Source `constexpr unsigned alloc_align = 4;`. Must be a power of 2. -/
def alloc_align : Nat := 4

/-- Source `sizeof(block_header)`: a 32-bit device `stable_pointer` plus the
31-bit `size` / 1-bit `in_use` field, 8 bytes in total. -/
def header_size : Nat := 8

/-- Truncation to C `uint32_t`. -/
def u32 (n : Nat) : Nat := n % 2 ^ 32

/-- C `uint32_t` subtraction `a - b` (wrapping). -/
def u32sub (a b : Nat) : Nat := (a + 2 ^ 32 - b % 2 ^ 32) % 2 ^ 32

/-- Store into the 31-bit `size : 31` bitfield. -/
def field31 (n : Nat) : Nat := n % 2 ^ 31

/-- The metadata of one block, with its address in the arena made explicit
(the C++ reaches the block through pointers; `addr` is the address of the
header itself). -/
structure block_header where
  addr : Nat
  size : Nat
  in_use : Bool
deriving DecidableEq, Repr

/-- Source `get_alloc`: the region tracked by a header starts just after it. -/
def get_alloc (b : block_header) : Nat := b.addr + header_size

/-- Source `get_end`: one past the tracked region. -/
def get_end (b : block_header) : Nat := b.addr + header_size + b.size

/-- Source `is_splitable`: the block is large enough to fit `new_size` plus a block
header plus some data (`size >= new_size + sizeof(block_header) +
min_alloc_size`). -/
def is_splitable (b : block_header) (new_size : Nat) : Bool :=
  new_size + header_size + min_alloc_size ≤ b.size

/-- Source `block_header::split(new_size)`.  Note the C++ body sets
`this->size = new_size` and only then computes
`new_next->size = size - new_size - sizeof(block_header)`, so the
subtraction reads the already-updated field (the saved `old_size` local is
never used); the arithmetic is `uint32_t` wrapping stored into the 31-bit
field. -/
def split (b : block_header) (new_size : Nat) : block_header × block_header :=
  let b1 : block_header := { b with size := new_size }
  ( b1,
    { addr := get_end b1,
      size := field31 (u32sub (u32sub b1.size new_size) header_size),
      in_use := false } )

/-- Source expression `(size + (alloc_align - 1)) & ~(alloc_align - 1)` on `uint32_t`:
extend size to the next multiple of `alloc_align`. -/
def round_size (size : Nat) : Nat :=
  u32 (size + (alloc_align - 1)) / alloc_align * alloc_align

/-- The scan loop of `try_malloc` over the block list (already-rounded
`size`): take the first block with `bh->size >= size && !bh->in_use`,
split it when splitable, mark it in use and return its allocation address
together with the updated list. -/
def try_malloc_list : List block_header → Nat → Option (Nat × List block_header)
  | [], _ => none
  | bh :: rest, size =>
    if bh.size ≥ size ∧ bh.in_use = false then
      if is_splitable bh size then
        some (get_alloc (split bh size).1,
              { (split bh size).1 with in_use := true } :: (split bh size).2 :: rest)
      else
        some (get_alloc bh, { bh with in_use := true } :: rest)
    else
      (try_malloc_list rest size).map (fun r => (r.1, bh :: r.2))

/-- Source `try_malloc(size)`: round the size up to `alloc_align` and scan the
total list. -/
def try_malloc (blocks : List block_header) (size : Nat) :
    Option (Nat × List block_header) :=
  try_malloc_list blocks (round_size size)

/-- Source `free(p)`: clear the `in_use` flag of the block whose header sits just
before `p` (`get_header(p) = ((block_header*)p) - 1`). -/
def free (blocks : List block_header) (p : Nat) : List block_header :=
  blocks.map (fun b => if get_alloc b == p then { b with in_use := false } else b)

/-- Source `init_allocator` / `allocator_global::create_block`: one block spanning
the whole arena, `block->size = s - sizeof(block_header)`, not in use. -/
def init_allocator (base arena_size : Nat) : List block_header :=
  [{ addr := base,
     size := field31 (u32sub arena_size header_size),
     in_use := false }]

/-- The spec invariant that the blocks (headers plus payloads), in list
order, exactly tile the address range from `a` to `stop` with no gaps and
no overlaps. -/
def tiles_exactly (a stop : Nat) : List block_header → Bool
  | [] => a == stop
  | b :: rest => b.addr == a && tiles_exactly (get_end b) stop rest

/-- The blocks that replace a selected block `b` after an allocation of
(rounded) size `k`: the split pair when the block is splitable, otherwise
the whole block, with `in_use` set. -/
def alloc_result (b : block_header) (k : Nat) : List block_header :=
  if is_splitable b k then
    [{ (split b k).1 with in_use := true }, (split b k).2]
  else
    [{ b with in_use := true }]

/-- The scan returns `none` exactly when no block is both free and large
enough for the (rounded) request. -/
theorem try_malloc_list_eq_none_iff (blocks : List block_header) (k : Nat) :
    try_malloc_list blocks k = none ↔
      ∀ b ∈ blocks, b.in_use = true ∨ b.size < k := by
  induction blocks with
  | nil => simp [try_malloc_list]
  | cons bh rest ih =>
    simp only [try_malloc_list]
    by_cases h : bh.size ≥ k ∧ bh.in_use = false
    · rw [if_pos h]
      constructor
      · intro hnone
        exfalso
        revert hnone
        split <;> simp
      · intro hall
        exfalso
        rcases hall bh (List.mem_cons_self bh rest) with h1 | h2
        · rw [h.2] at h1
          exact Bool.false_ne_true h1
        · omega
    · rw [if_neg h, Option.map_eq_none', ih]
      constructor
      · intro hrest b hb
        rcases List.mem_cons.mp hb with rfl | hb'
        · by_cases hu : b.in_use = true
          · exact Or.inl hu
          · right
            by_contra hs
            exact h ⟨by omega, Bool.not_eq_true _ ▸ hu⟩
        · exact hrest b hb'
      · intro hall b hb
        exact hall b (List.mem_cons_of_mem _ hb)

/-- First-fit: when every block before `b` is in use or too small and `b`
is free and large enough, the scan allocates exactly `b`, returning its
allocation address and replacing it by `alloc_result`. -/
theorem try_malloc_list_first_fit (k : Nat) (pre : List block_header)
    (b : block_header) (post : List block_header)
    (hpre : ∀ b' ∈ pre, b'.in_use = true ∨ b'.size < k)
    (hb : b.in_use = false) (hfit : k ≤ b.size) :
    try_malloc_list (pre ++ b :: post) k =
      some (get_alloc b, pre ++ alloc_result b k ++ post) := by
  induction pre with
  | nil =>
    simp only [List.nil_append, try_malloc_list]
    rw [if_pos ⟨hfit, hb⟩]
    unfold alloc_result
    split
    · simp [get_alloc, split]
    · simp
  | cons b' pre' ih =>
    simp only [List.cons_append, try_malloc_list]
    have hb' := hpre b' (List.mem_cons_self b' pre')
    rw [if_neg ?hmiss]
    case hmiss =>
      rintro ⟨hs, hu⟩
      rcases hb' with h1 | h2
      · rw [hu] at h1
        exact Bool.false_ne_true h1
      · omega
    rw [List.append_eq, ih (fun x hx => hpre x (List.mem_cons_of_mem _ hx))]
    rfl

/-- A successful scan leaves the selected block (now in use) in the
returned list, carrying the returned allocation address and a size at least
the rounded request. -/
theorem try_malloc_list_some_mem (blocks : List block_header) (k p : Nat)
    (st' : List block_header)
    (h : try_malloc_list blocks k = some (p, st')) :
    ∃ b ∈ st', get_alloc b = p ∧ k ≤ b.size := by
  induction blocks generalizing p st' with
  | nil => simp [try_malloc_list] at h
  | cons bh rest ih =>
    simp only [try_malloc_list] at h
    by_cases hc : bh.size ≥ k ∧ bh.in_use = false
    · rw [if_pos hc] at h
      by_cases hs : is_splitable bh k = true
      · rw [if_pos hs] at h
        obtain ⟨hp, hst⟩ := Prod.mk.injEq .. ▸ Option.some.injEq .. ▸ h
        refine ⟨{ (split bh k).1 with in_use := true }, ?_, ?_, ?_⟩
        · rw [← hst]
          exact List.mem_cons_self _ _
        · rw [← hp]
          rfl
        · show k ≤ (split bh k).1.size
          simp [split]
      · rw [if_neg hs] at h
        obtain ⟨hp, hst⟩ := Prod.mk.injEq .. ▸ Option.some.injEq .. ▸ h
        refine ⟨{ bh with in_use := true }, ?_, ?_, ?_⟩
        · rw [← hst]
          exact List.mem_cons_self _ _
        · rw [← hp]
          rfl
        · exact hc.1
    · rw [if_neg hc] at h
      obtain ⟨⟨q, rest'⟩, hq, hmap⟩ := Option.map_eq_some'.mp h
      obtain ⟨hp, hst⟩ := Prod.mk.injEq .. ▸ hmap
      obtain ⟨b, hmem, hgb, hsb⟩ := ih q rest' hq
      refine ⟨b, ?_, ?_, hsb⟩
      · rw [← hst]
        exact List.mem_cons_of_mem _ hmem
      · rw [← hp]
        exact hgb

/-- Applying `free` turns the block at allocation address `p` into a free block that
stays in the list. -/
theorem free_clears_block (st' : List block_header) (p : Nat)
    (b : block_header) (hmem : b ∈ st') (hp : get_alloc b = p) :
    { b with in_use := false } ∈ free st' p := by
  have : ({ b with in_use := false } : block_header) =
      (fun c => if get_alloc c == p then { c with in_use := false } else c) b := by
    simp [hp]
  rw [this]
  exact List.mem_map_of_mem _ hmem

/-- The scan succeeds whenever some block is free and large enough. -/
theorem try_malloc_list_isSome (blocks : List block_header) (k : Nat)
    (h : ∃ b ∈ blocks, b.in_use = false ∧ k ≤ b.size) :
    (try_malloc_list blocks k).isSome := by
  rw [← Option.ne_none_iff_isSome]
  intro hnone
  obtain ⟨b, hb, hu, hs⟩ := h
  rcases (try_malloc_list_eq_none_iff blocks k).mp hnone b hb with h1 | h2
  · rw [hu] at h1
    exact Bool.false_ne_true h1
  · omega

end heap

/-! ## Claim theorems -/

/-- C1, counterexample: the claim says an even-row tile waits on its western
side first and then drives its eastern neighbor.  The tile at (x, y) = (1, 0)
in a width-3 grid (even row, interior column) instead starts by waiting on
its eastern side and never drives its eastern neighbor. -/
theorem C1_counterexample :
    (AcapAIE.horizontal_barrier 3 1 0).head? =
      some (Side.east, lock_op.acquire_with_value true)
  ∧ ¬ ((Side.east, lock_op.release_with_value true) ∈
        AcapAIE.horizontal_barrier 3 1 0) := by
  decide

/-- C1, amended: the traversal direction of a row is chosen by row parity,
with the parities the opposite way round from the claim: a tile in an odd
row (y odd) propagates the token West to East and back (it waits on its
western side first and drives its eastern neighbor), and a tile in an even
row propagates East to West and back. -/
theorem C1_amended_row_direction (w x y : Nat) :
    (y % 2 = 1 →
       (is_west_column x = false →
          (AcapAIE.horizontal_barrier w x y).head? =
            some (Side.west, lock_op.acquire_with_value true))
     ∧ (is_memory_module_east w x y = true →
          (Side.east, lock_op.release_with_value true) ∈
            AcapAIE.horizontal_barrier w x y))
  ∧ (y % 2 = 0 →
       (is_east_column w x = false →
          (AcapAIE.horizontal_barrier w x y).head? =
            some (Side.east, lock_op.acquire_with_value true))
     ∧ (is_memory_module_west x y = true →
          (Side.west, lock_op.release_with_value true) ∈
            AcapAIE.horizontal_barrier w x y)) := by
  constructor
  · intro hodd
    have hcond : (y % 2 == 1) = true := by simp [hodd]
    constructor
    · intro hwest
      simp [AcapAIE.horizontal_barrier, hcond, hwest]
    · intro hmem
      simp [AcapAIE.horizontal_barrier, hcond, hmem]
  · intro heven
    have hcond : (y % 2 == 1) = false := by simp [heven]
    constructor
    · intro heast
      simp [AcapAIE.horizontal_barrier, hcond, heast]
    · intro hmem
      simp [AcapAIE.horizontal_barrier, hcond, hmem]

/-- Witness for the amended C1 at the interior tiles (1, 1) (odd row) and
(1, 0) (even row) of a width-3 grid. -/
theorem C1_amended_row_direction_witness :
    (AcapAIE.horizontal_barrier 3 1 1).head? =
      some (Side.west, lock_op.acquire_with_value true)
  ∧ (Side.east, lock_op.release_with_value true) ∈ AcapAIE.horizontal_barrier 3 1 1
  ∧ (AcapAIE.horizontal_barrier 3 1 0).head? =
      some (Side.east, lock_op.acquire_with_value true)
  ∧ (Side.west, lock_op.release_with_value true) ∈ AcapAIE.horizontal_barrier 3 1 0 :=
  ⟨((C1_amended_row_direction 3 1 1).1 (by decide)).1 (by decide),
   ((C1_amended_row_direction 3 1 1).1 (by decide)).2 (by decide),
   ((C1_amended_row_direction 3 1 0).2 (by decide)).1 (by decide),
   ((C1_amended_row_direction 3 1 0).2 (by decide)).2 (by decide)⟩

/-- C2: on a lock device holding value `false` with its client running,
`acquire_with_value(true)` blocks the caller; a bare notification does not
wake it; after the other context performs `release_with_value(true)` the
waiter is resumed and the value it observes on resuming is `true`. -/
theorem C2_acquire_blocks_until_release (s : lock_sys)
    (hv : s.dev.value = false) (hw : s.waiter = WaiterPhase.running) :
    (call_acquire_with_value s true).waiter = WaiterPhase.blocked true
  ∧ notify_one (call_acquire_with_value s true) = call_acquire_with_value s true
  ∧ (call_release_with_value (call_acquire_with_value s true) true).waiter
      = WaiterPhase.resumed true
  ∧ (call_release_with_value (call_acquire_with_value s true) true).dev.value
      = true := by
  obtain ⟨⟨v⟩, w⟩ := s
  dsimp only at hv hw
  subst hv hw
  decide

/-- Witness for C2 at the freshly reset device (value `false`, client
running). -/
theorem C2_acquire_blocks_until_release_witness :
    (call_acquire_with_value ⟨⟨false⟩, WaiterPhase.running⟩ true).waiter
      = WaiterPhase.blocked true
  ∧ notify_one (call_acquire_with_value ⟨⟨false⟩, WaiterPhase.running⟩ true)
      = call_acquire_with_value ⟨⟨false⟩, WaiterPhase.running⟩ true
  ∧ (call_release_with_value
       (call_acquire_with_value ⟨⟨false⟩, WaiterPhase.running⟩ true) true).waiter
      = WaiterPhase.resumed true
  ∧ (call_release_with_value
       (call_acquire_with_value ⟨⟨false⟩, WaiterPhase.running⟩ true) true).dev.value
      = true :=
  C2_acquire_blocks_until_release ⟨⟨false⟩, WaiterPhase.running⟩ rfl rfl

/-- C3: the native memory module of `tile::mem()` is chosen by row parity:
an even row gets its eastern memory module, an odd row its western one. -/
theorem C3_mem_native_parity (y : Nat) :
    (y % 2 = 0 → mem_native y = Side.east)
  ∧ (y % 2 = 1 → mem_native y = Side.west) := by
  constructor <;> intro h <;> simp [mem_native, h]

/-- Witness for C3 at rows 2 (even) and 3 (odd). -/
theorem C3_mem_native_parity_witness :
    mem_native 2 = Side.east ∧ mem_native 3 = Side.west :=
  ⟨(C3_mem_native_parity 2).1 (by decide), (C3_mem_native_parity 3).2 (by decide)⟩

/-- C4 (code-bug evaluation): on a fresh arena of size 64 based at 0,
`alloc(8)` (8 + header + min_alloc = 24 < 64) splits the single free block,
but the size field of the remainder free block becomes 2^31 - 8 = 2147483640
instead of the intended remainder 64 - 3*8 = 40: `split` subtracts
`new_size` and the header size from the already-updated `size` field. -/
theorem C4_split_wrong_remainder_eval :
    heap.try_malloc (heap.init_allocator 0 64) 8 =
      some (8, [⟨0, 8, true⟩, ⟨16, 2147483640, false⟩])
  ∧ (2147483640 : Nat) ≠ 64 - 3 * heap.header_size := by
  constructor
  · rfl
  · decide

/-- C6 (code-bug evaluation): the exact-tiling invariant holds for the
freshly initialized arena but is destroyed by the first splitting
allocation, whose remainder block claims to extend far beyond the arena. -/
theorem C6_tiling_broken_by_split_eval :
    heap.tiles_exactly 0 64 (heap.init_allocator 0 64) = true
  ∧ heap.try_malloc (heap.init_allocator 0 64) 8 =
      some (8, [⟨0, 8, true⟩, ⟨16, 2147483640, false⟩])
  ∧ heap.tiles_exactly 0 64 [⟨0, 8, true⟩, ⟨16, 2147483640, false⟩] = false := by
  refine ⟨rfl, rfl, rfl⟩

/-- C5: `try_malloc` rounds the request up to the 4-byte alignment, fails
with `none` exactly when no free block is large enough for the rounded
request, and otherwise allocates the first fitting free block in list
order, splitting it exactly when it is splitable. -/
theorem C5_try_malloc_first_fit (blocks : List heap.block_header) (size : Nat) :
    (size + heap.alloc_align - 1 < 2 ^ 32 →
       size ≤ heap.round_size size
     ∧ heap.round_size size % heap.alloc_align = 0
     ∧ heap.round_size size < size + heap.alloc_align)
  ∧ (heap.try_malloc blocks size = none ↔
       ∀ b ∈ blocks, b.in_use = true ∨ b.size < heap.round_size size)
  ∧ (∀ pre b post,
       blocks = pre ++ b :: post →
       (∀ b' ∈ pre, b'.in_use = true ∨ b'.size < heap.round_size size) →
       b.in_use = false → heap.round_size size ≤ b.size →
       heap.try_malloc blocks size =
         some (heap.get_alloc b,
               pre ++ heap.alloc_result b (heap.round_size size) ++ post)) := by
  refine ⟨?_, ?_, ?_⟩
  · intro hlt
    simp only [heap.round_size, heap.u32, heap.alloc_align] at *
    omega
  · exact heap.try_malloc_list_eq_none_iff blocks (heap.round_size size)
  · intro pre b post hblocks hpre hb hfit
    rw [hblocks]
    exact heap.try_malloc_list_first_fit (heap.round_size size) pre b post hpre hb hfit

/-- Witness for C5: request 5 rounds to 8; the first block is in use, so
the allocation takes the second block, which is too small to split. -/
theorem C5_try_malloc_first_fit_witness :
    (5 ≤ heap.round_size 5
   ∧ heap.round_size 5 % heap.alloc_align = 0
   ∧ heap.round_size 5 < 5 + heap.alloc_align)
  ∧ heap.try_malloc [⟨0, 8, true⟩, ⟨16, 20, false⟩] 5 =
      some (24, [⟨0, 8, true⟩, ⟨16, 20, true⟩]) := by
  constructor
  · exact (C5_try_malloc_first_fit [] 5).1 (by decide)
  · have h := (C5_try_malloc_first_fit [⟨0, 8, true⟩, ⟨16, 20, false⟩] 5).2.2
      [⟨0, 8, true⟩] ⟨16, 20, false⟩ [] rfl (by decide) rfl (by decide)
    rw [h]
    rfl

/-- C7: whenever `alloc(n)` succeeds returning pointer `p` and state `st'`,
freeing `p` and allocating `n` again succeeds (returning some pointer, not
necessarily `p`). -/
theorem C7_alloc_free_alloc_roundtrip (blocks : List heap.block_header)
    (n p : Nat) (st' : List heap.block_header)
    (h : heap.try_malloc blocks n = some (p, st')) :
    ∃ r, heap.try_malloc (heap.free st' p) n = some r := by
  obtain ⟨b, hmem, hpb, hsz⟩ :=
    heap.try_malloc_list_some_mem blocks (heap.round_size n) p st' h
  have hfree : ({ b with in_use := false } : heap.block_header) ∈ heap.free st' p :=
    heap.free_clears_block st' p b hmem hpb
  have hsome :=
    heap.try_malloc_list_isSome (heap.free st' p) (heap.round_size n)
      ⟨{ b with in_use := false }, hfree, rfl, hsz⟩
  exact Option.isSome_iff_exists.mp hsome

/-- Witness for C7: the (buggy-split) state after `alloc(8)` on a fresh
64-byte arena still lets `free(8)` then `alloc(8)` succeed. -/
theorem C7_alloc_free_alloc_roundtrip_witness :
    ∃ r, heap.try_malloc
        (heap.free [⟨0, 8, true⟩, ⟨16, 2147483640, false⟩] 8) 8 = some r :=
  C7_alloc_free_alloc_roundtrip (heap.init_allocator 0 64) 8 8
    [⟨0, 8, true⟩, ⟨16, 2147483640, false⟩] rfl

/-- C8: submitting to a tile whose previously submitted work has not been
joined fails synchronously with the already-running error and leaves the
context (and hence the running work) untouched. -/
theorem C8_single_task_already_running (t : tile_infrastructure)
    (h : t.future_valid = true) :
    t.single_task = (Except.error acap_error.already_running, t) := by
  simp [tile_infrastructure.single_task, h]

/-- Witness for C8 at a context with pending work. -/
theorem C8_single_task_already_running_witness :
    tile_infrastructure.single_task ⟨true⟩ =
      (Except.error acap_error.already_running, ⟨true⟩) :=
  C8_single_task_already_running ⟨true⟩ rfl

/-- C9: `lock_unit::lock(i)` fails synchronously for `i` outside
`[0, lock_number)` and returns the i-th lock device inside the range. -/
theorem C9_lock_index_range (u : lock_unit) (i : Int) :
    ((i < 0 ∨ (lock_number : Int) ≤ i) →
       u.lock i = Except.error acap_error.out_of_range)
  ∧ (∀ j : Fin lock_number, i = (j : Nat) →
       u.lock i = Except.ok (u.locks j)) := by
  constructor
  · intro h
    rw [lock_unit.lock, dif_neg]
    omega
  · intro j hj
    subst hj
    have hlt : (((j : Nat) : Int)) < (lock_number : Int) := by
      exact_mod_cast j.isLt
    rw [lock_unit.lock, dif_pos ⟨Int.natCast_nonneg _, hlt⟩]
    congr 1

/-- A concrete lock bank of 16 freshly reset devices. -/
def sample_lock_unit : lock_unit := ⟨fun _ => ⟨false⟩⟩

/-- Witness for C9: index 20 is rejected, index 3 returns the third
device. -/
theorem C9_lock_index_range_witness :
    sample_lock_unit.lock 20 = Except.error acap_error.out_of_range
  ∧ sample_lock_unit.lock 3 =
      Except.ok (sample_lock_unit.locks ⟨3, by norm_num [lock_number]⟩) :=
  ⟨(C9_lock_index_range sample_lock_unit 20).1 (Or.inr (by norm_num [lock_number])),
   (C9_lock_index_range sample_lock_unit 3).2 ⟨3, by norm_num [lock_number]⟩ rfl⟩

/-- C10: calling `wait()` on a context with no pending work returns at once:
no join is performed (so the call cannot block or fail) and the state is
unchanged. -/
theorem C10_wait_idle_noop (t : tile_infrastructure)
    (h : t.future_valid = false) :
    t.wait = (false, t) := by
  simp [tile_infrastructure.wait, h]

/-- Witness for C10 at an idle context. -/
theorem C10_wait_idle_noop_witness :
    tile_infrastructure.wait ⟨false⟩ = (false, ⟨false⟩) :=
  C10_wait_idle_noop ⟨false⟩ rfl

end AcapAIE
